import Mathlib

/-!
Shallow embedding of `surf-retry` (src/src/lib.rs), a surf middleware that
retries requests.  The embedding models:

* `Response` — the part of a surf response the middleware reads: its status
  code and its `Retry-After` header value (the only header consulted).
* `parseU64` — Rust's `str::parse::<u64>()` on the header string (optional
  leading `+`, one or more ASCII digits, overflow to `Err`).
* `retry_to_seconds` — the free function of the same name.  The external
  `httpdate::parse_http_date` and `SystemTime::now()` are parameters: a parse
  function `String → Option Nat` returning the parsed date as nanoseconds
  since the epoch, and the current system time in the same unit.  The Rust
  `Result` is collapsed to `Option` (the caller discards the error value).
* `RetryDecision` / `RetryMiddleware.use_policy` — the `retry_policies`
  decision type (with `execute_after` as a signed epoch-nanosecond instant)
  and the middleware's `use_policy` method; `Utc::now()` is a parameter.
* `RetryMiddleware.handle` — the `Middleware::handle` implementation.  The
  transport (`next.run`) is modelled as `sends : Nat → Except ε Response`
  giving the outcome of the i-th send (0-based); the per-iteration clock
  readings are the functions `nowSys` / `nowUtc` indexed by the value of the
  `retries` counter.  `handle` returns the result together with the number of
  sends performed and the list of sleep durations (in seconds) performed, in
  order.  Note the Rust loop's inner `let res` only shadows the outer `res`:
  the outer binding (the first response) is what the header lookup and the
  final `Ok(res)` refer to, which the recursion below mirrors by passing the
  first response `res` through unchanged.
-/

namespace SurfRetry

/-- A response as seen by the middleware: status code and the value of its
`Retry-After` header, if present. -/
structure Response where
  status : Nat
  retryAfter : Option String
deriving DecidableEq, Repr

/-- Nanoseconds per second, the unit conversion used by `Duration::as_secs`. -/
def NANOS_PER_SEC : Nat := 1000000000

/-- Accumulate the value of a run of ASCII digits; `none` on a non-digit. -/
def digitsVal : List Char → Nat → Option Nat
  | [], acc => some acc
  | c :: cs, acc =>
    if c.isDigit then digitsVal cs (acc * 10 + (c.toNat - 48)) else none

/-- Rust `str::parse::<u64>()`: optional leading `+`, then one or more ASCII
digits; empty input or a value not fitting in 64 bits is an error. -/
def parseU64 (s : String) : Option Nat :=
  let cs := if s.data.head? = some '+' then s.data.tail else s.data
  match cs with
  | [] => none
  | _ :: _ =>
    match digitsVal cs 0 with
    | some v => if v < 2 ^ 64 then some v else none
    | none => none

/-- Embeds `fn retry_to_seconds(header: &HeaderValue) -> Result<u64>`.
`parse_http_date` stands for `httpdate::parse_http_date` (epoch nanoseconds on
success) and `sys_time` for `SystemTime::now()`.  A failed integer parse falls
back to date parsing; `date.duration_since(sys_time)` errors when the date is
strictly in the past; a successful value below 1 is raised to 1.  `none`
stands for the `Err` the function propagates with `?`. -/
def retry_to_seconds (parse_http_date : String → Option Nat) (sys_time : Nat)
    (header : String) : Option Nat :=
  let secsRes : Option Nat :=
    match parseU64 header with
    | some s => some s
    | none =>
      match parse_http_date header with
      | none => none
      | some date =>
        if date < sys_time then none
        else some ((date - sys_time) / NANOS_PER_SEC)
  match secsRes with
  | none => none
  | some secs => some (if secs < 1 then 1 else secs)

/-- The decision type of the `retry_policies` crate: either do not retry, or
retry after the absolute instant `execute_after` (epoch nanoseconds, signed
as a `DateTime<Utc>` difference can be). -/
inductive RetryDecision where
  | DoNotRetry : RetryDecision
  | Retry (execute_after : Int) : RetryDecision
deriving DecidableEq, Repr

/-- The middleware configuration, as constructed by `RetryMiddleware::new`.
The `RetryPolicy` trait object is modelled as its `should_retry` method. -/
structure RetryMiddleware where
  max_retries : Nat
  policy : Nat → RetryDecision
  fallback_interval : Nat

/-- Embeds `RetryMiddleware::use_policy`.  `now` stands for `Utc::now()` in
epoch nanoseconds; `(execute_after - Utc::now()).to_std()` errors exactly when
the difference is negative, and `Duration::as_secs` truncates to seconds. -/
def RetryMiddleware.use_policy (m : RetryMiddleware) (retry_count : Nat)
    (now : Int) : Nat :=
  match m.policy retry_count with
  | .Retry execute_after =>
    let diff := execute_after - now
    if 0 ≤ diff then diff.toNat / NANOS_PER_SEC else m.fallback_interval
  | .DoNotRetry => m.fallback_interval

/-- The constant `RETRY_CODES`: `StatusCode::TooManyRequests` (429) and
`StatusCode::RequestTimeout` (408). -/
def RETRY_CODES : List Nat := [429, 408]

/-- The clock inputs of one `handle` call: the external HTTP-date parser and
the per-iteration readings of `SystemTime::now()` / `Utc::now()`, indexed by
the value of the `retries` counter at the point of the reading. -/
structure Env where
  parse_http_date : String → Option Nat
  nowSys : Nat → Nat
  nowUtc : Nat → Int

/-- The body of the retry loop that computes `secs`: the `Retry-After` header
of `res` if present and parseable, otherwise `use_policy`. -/
def resolveWait (m : RetryMiddleware) (env : Env) (res : Response)
    (retries : Nat) : Nat :=
  match res.retryAfter with
  | some retry_after =>
    match retry_to_seconds env.parse_http_date (env.nowSys retries) retry_after with
    | some s => s
    | none => m.use_policy retries (env.nowUtc retries)
  | none => m.use_policy retries (env.nowUtc retries)

/-- The `while retries < self.max_retries` loop of `handle`.  `res` is the
outer (first) response — the Rust inner `let res` shadows it, so the header
lookup and the final `Ok(res)` always see the first response.  `sendCount`
sends have been performed so far and `waits` sleeps; the result is the
returned value together with the final send count and sleep list. -/
def handleLoop {ε : Type} (m : RetryMiddleware) (env : Env)
    (sends : Nat → Except ε Response) (res : Response)
    (retries sendCount : Nat) (waits : List Nat) :
    Except ε Response × Nat × List Nat :=
  if _h : retries < m.max_retries then
    let secs := resolveWait m env res (retries + 1)
    match sends sendCount with
    | .error e => (.error e, sendCount + 1, waits ++ [secs])
    | .ok res2 =>
      if res2.status ∈ RETRY_CODES then
        handleLoop m env sends res (retries + 1) (sendCount + 1) (waits ++ [secs])
      else
        (.ok res2, sendCount + 1, waits ++ [secs])
  else
    (.ok res, sendCount, waits)
termination_by m.max_retries - retries
decreasing_by omega

/-- Embeds `Middleware::handle`: the initial send, the retryable check on the
first response, and the loop.  Returns the result (`.error e` models the `?`
propagation of a transport error), the number of sends performed, and the
sleep durations performed in order. -/
def RetryMiddleware.handle {ε : Type} (m : RetryMiddleware) (env : Env)
    (sends : Nat → Except ε Response) : Except ε Response × Nat × List Nat :=
  match sends 0 with
  | .error e => (.error e, 1, [])
  | .ok res =>
    if res.status ∈ RETRY_CODES then
      handleLoop m env sends res 0 1 []
    else
      (.ok res, 1, [])

/-- Two send outcomes that agree on everything the retry loop inspects: both
transport errors with the same error, or both responses with the same status
code (their headers may differ). -/
def sameStatusOutcome {ε : Type} : Except ε Response → Except ε Response → Prop
  | .ok r, .ok r2 => r.status = r2.status
  | .error e, .error e2 => e = e2
  | _, _ => False

/-! Concrete inputs used to exercise the middleware on closed runs. -/

/-- An environment whose date parser rejects everything and whose clocks sit
at the epoch. -/
def envZero : Env := ⟨fun _ => none, fun _ => 0, fun _ => 0⟩

/-- A middleware with one retry, a policy that always declines, and a
1-second fallback. -/
def mOneRetry : RetryMiddleware := ⟨1, fun _ => .DoNotRetry, 1⟩

/-- A middleware with zero retries. -/
def mZero : RetryMiddleware := ⟨0, fun _ => .DoNotRetry, 1⟩

/-- A middleware whose policy asks to retry half a second after the epoch,
with a 1-second fallback. -/
def mPolicyHalfSecond : RetryMiddleware := ⟨1, fun _ => .Retry 500000000, 1⟩

/-- A middleware with one retry, a declining policy, and a 7-second
fallback. -/
def mFallback7 : RetryMiddleware := ⟨1, fun _ => .DoNotRetry, 7⟩

/-- A transport whose every send yields `429` with no `Retry-After` header. -/
def sends429 : Nat → Except Unit Response := fun _ => .ok ⟨429, none⟩

/-- A transport that yields `429` first and `408` on every later send. -/
def sendsThen408 : Nat → Except Unit Response :=
  fun i => if i = 0 then .ok ⟨429, none⟩ else .ok ⟨408, none⟩

/-- An HTTP-date string (one second before `envPast`'s system clock). -/
def pastDateStr : String := "Fri, 31 Dec 1999 23:59:59 GMT"

/-- An environment whose date parser maps `pastDateStr` to the epoch and
whose system clock reads one second after the epoch. -/
def envPast : Env :=
  ⟨fun s => if s = pastDateStr then some 0 else none,
   fun _ => 1000000000, fun _ => 0⟩

/-- A transport whose every send yields `429` carrying `pastDateStr` as its
`Retry-After` header. -/
def sendsPast : Nat → Except Unit Response :=
  fun _ => .ok ⟨429, some pastDateStr⟩

/-- A transport answering `429` throughout, with `Retry-After: 7` on the
second response only. -/
def sendsHdrA : Nat → Except Unit Response :=
  fun i => if i = 1 then .ok ⟨429, some "7"⟩ else .ok ⟨429, none⟩

/-- A transport answering `429` throughout, with `Retry-After: 1000` on the
second response only. -/
def sendsHdrB : Nat → Except Unit Response :=
  fun i => if i = 1 then .ok ⟨429, some "1000"⟩ else .ok ⟨429, none⟩

/-- A transport whose every send yields `429` with `Retry-After: 5`. -/
def sendsHdr5 : Nat → Except Unit Response := fun _ => .ok ⟨429, some "5"⟩

/-- A transport whose every send yields a plain `200` response. -/
def sends200 : Nat → Except Unit Response := fun _ => .ok ⟨200, none⟩

/-- A transport that yields `429` on the first send and a transport error on
every later one. -/
def sendsErrAt1 : Nat → Except Unit Response :=
  fun i => if i = 0 then .ok ⟨429, none⟩ else .error ()

/-! Step equations for `handleLoop`. -/

theorem handleLoop_stop {ε : Type} (m : RetryMiddleware) (env : Env)
    (sends : Nat → Except ε Response) (res : Response)
    (retries sendCount : Nat) (waits : List Nat)
    (h : ¬ retries < m.max_retries) :
    handleLoop m env sends res retries sendCount waits =
      (.ok res, sendCount, waits) := by
  unfold handleLoop
  simp [h]

theorem handleLoop_step {ε : Type} (m : RetryMiddleware) (env : Env)
    (sends : Nat → Except ε Response) (res : Response)
    (retries sendCount : Nat) (waits : List Nat)
    (h : retries < m.max_retries) :
    handleLoop m env sends res retries sendCount waits =
      (match sends sendCount with
       | .error e =>
         (.error e, sendCount + 1, waits ++ [resolveWait m env res (retries + 1)])
       | .ok res2 =>
         if res2.status ∈ RETRY_CODES then
           handleLoop m env sends res (retries + 1) (sendCount + 1)
             (waits ++ [resolveWait m env res (retries + 1)])
         else
           (.ok res2, sendCount + 1,
             waits ++ [resolveWait m env res (retries + 1)])) := by
  rw [handleLoop]
  simp [h]

/-! Helper lemmas about the loop, all by induction on the remaining fuel
`m.max_retries - retries`. -/

theorem handleLoop_sendCount_le {ε : Type} (m : RetryMiddleware) (env : Env)
    (sends : Nat → Except ε Response) (res : Response) :
    ∀ n retries sendCount waits, m.max_retries - retries ≤ n →
      (handleLoop m env sends res retries sendCount waits).2.1 ≤
        sendCount + (m.max_retries - retries) := by
  intro n
  induction n with
  | zero =>
    intro retries sendCount waits hn
    rw [handleLoop_stop _ _ _ _ _ _ _ (by omega)]
    simp
  | succ n ih =>
    intro retries sendCount waits hn
    by_cases h : retries < m.max_retries
    · rw [handleLoop_step _ _ _ _ _ _ _ h]
      cases hs : sends sendCount with
      | error e => simp; omega
      | ok res2 =>
        by_cases h2 : res2.status ∈ RETRY_CODES
        · simp only [h2, if_true]
          have := ih (retries + 1) (sendCount + 1)
            (waits ++ [resolveWait m env res (retries + 1)]) (by omega)
          omega
        · simp only [h2, if_false]
          simp
          omega
    · rw [handleLoop_stop _ _ _ _ _ _ _ h]
      simp

theorem handleLoop_sendCount_ge {ε : Type} (m : RetryMiddleware) (env : Env)
    (sends : Nat → Except ε Response) (res : Response) :
    ∀ n retries sendCount waits, m.max_retries - retries ≤ n →
      sendCount ≤ (handleLoop m env sends res retries sendCount waits).2.1 := by
  intro n
  induction n with
  | zero =>
    intro retries sendCount waits hn
    rw [handleLoop_stop _ _ _ _ _ _ _ (by omega)]
  | succ n ih =>
    intro retries sendCount waits hn
    by_cases h : retries < m.max_retries
    · rw [handleLoop_step _ _ _ _ _ _ _ h]
      cases hs : sends sendCount with
      | error e => simp
      | ok res2 =>
        by_cases h2 : res2.status ∈ RETRY_CODES
        · simp only [h2, if_true]
          have := ih (retries + 1) (sendCount + 1)
            (waits ++ [resolveWait m env res (retries + 1)]) (by omega)
          omega
        · simp only [h2, if_false]
          simp
    · rw [handleLoop_stop _ _ _ _ _ _ _ h]

theorem handleLoop_waits_len {ε : Type} (m : RetryMiddleware) (env : Env)
    (sends : Nat → Except ε Response) (res : Response) :
    ∀ n retries sendCount waits, m.max_retries - retries ≤ n →
      (handleLoop m env sends res retries sendCount waits).2.2.length ≤
        waits.length + (m.max_retries - retries) := by
  intro n
  induction n with
  | zero =>
    intro retries sendCount waits hn
    rw [handleLoop_stop _ _ _ _ _ _ _ (by omega)]
    simp
  | succ n ih =>
    intro retries sendCount waits hn
    by_cases h : retries < m.max_retries
    · rw [handleLoop_step _ _ _ _ _ _ _ h]
      cases hs : sends sendCount with
      | error e => simp; omega
      | ok res2 =>
        by_cases h2 : res2.status ∈ RETRY_CODES
        · simp only [h2, if_true]
          have := ih (retries + 1) (sendCount + 1)
            (waits ++ [resolveWait m env res (retries + 1)]) (by omega)
          simp at this
          omega
        · simp only [h2, if_false]
          simp
          omega
    · rw [handleLoop_stop _ _ _ _ _ _ _ h]
      simp

theorem handleLoop_waits_prefix {ε : Type} (m : RetryMiddleware) (env : Env)
    (sends : Nat → Except ε Response) (res : Response) :
    ∀ n retries sendCount waits, m.max_retries - retries ≤ n →
      ∃ t, (handleLoop m env sends res retries sendCount waits).2.2 =
        waits ++ t := by
  intro n
  induction n with
  | zero =>
    intro retries sendCount waits hn
    rw [handleLoop_stop _ _ _ _ _ _ _ (by omega)]
    exact ⟨[], by simp⟩
  | succ n ih =>
    intro retries sendCount waits hn
    by_cases h : retries < m.max_retries
    · rw [handleLoop_step _ _ _ _ _ _ _ h]
      cases hs : sends sendCount with
      | error e => exact ⟨[resolveWait m env res (retries + 1)], by simp⟩
      | ok res2 =>
        by_cases h2 : res2.status ∈ RETRY_CODES
        · simp only [h2, if_true]
          obtain ⟨t, ht⟩ := ih (retries + 1) (sendCount + 1)
            (waits ++ [resolveWait m env res (retries + 1)]) (by omega)
          exact ⟨resolveWait m env res (retries + 1) :: t, by simp [ht]⟩
        · simp only [h2, if_false]
          exact ⟨[resolveWait m env res (retries + 1)], by simp⟩
    · rw [handleLoop_stop _ _ _ _ _ _ _ h]
      exact ⟨[], by simp⟩

theorem handleLoop_all_retryable {ε : Type} (m : RetryMiddleware) (env : Env)
    (sends : Nat → Except ε Response) (res : Response) :
    ∀ n retries sendCount waits, m.max_retries - retries ≤ n →
      (∀ i, sendCount ≤ i → i < sendCount + (m.max_retries - retries) →
        ∃ r, sends i = .ok r ∧ r.status ∈ RETRY_CODES) →
      (handleLoop m env sends res retries sendCount waits).1 = .ok res ∧
        (handleLoop m env sends res retries sendCount waits).2.1 =
          sendCount + (m.max_retries - retries) := by
  intro n
  induction n with
  | zero =>
    intro retries sendCount waits hn _
    rw [handleLoop_stop _ _ _ _ _ _ _ (by omega)]
    simp
    omega
  | succ n ih =>
    intro retries sendCount waits hn hall
    by_cases h : retries < m.max_retries
    · rw [handleLoop_step _ _ _ _ _ _ _ h]
      obtain ⟨r, hr, hrc⟩ := hall sendCount (le_refl _) (by omega)
      rw [hr]
      simp only [hrc, if_true]
      have := ih (retries + 1) (sendCount + 1)
        (waits ++ [resolveWait m env res (retries + 1)]) (by omega)
        (fun i hi1 hi2 => hall i (by omega) (by omega))
      exact ⟨this.1, by omega⟩
    · rw [handleLoop_stop _ _ _ _ _ _ _ h]
      simp
      omega

theorem handleLoop_error_at {ε : Type} (m : RetryMiddleware) (env : Env)
    (sends : Nat → Except ε Response) (res : Response) :
    ∀ n retries sendCount waits k e, m.max_retries - retries ≤ n →
      (∀ i, sendCount ≤ i → i < k →
        ∃ r, sends i = .ok r ∧ r.status ∈ RETRY_CODES) →
      sends k = .error e → sendCount ≤ k →
      retries + (k - sendCount) < m.max_retries →
      (handleLoop m env sends res retries sendCount waits).1 = .error e ∧
        (handleLoop m env sends res retries sendCount waits).2.1 = k + 1 := by
  intro n
  induction n with
  | zero =>
    intro retries sendCount waits k e hn _ _ _ hceil
    omega
  | succ n ih =>
    intro retries sendCount waits k e hn hall hk hks hceil
    have h : retries < m.max_retries := by omega
    rw [handleLoop_step _ _ _ _ _ _ _ h]
    by_cases hkc : k = sendCount
    · subst hkc
      rw [hk]
      simp
    · obtain ⟨r, hr, hrc⟩ := hall sendCount (le_refl _) (by omega)
      rw [hr]
      simp only [hrc, if_true]
      exact ih (retries + 1) (sendCount + 1)
        (waits ++ [resolveWait m env res (retries + 1)]) k e (by omega)
        (fun i hi1 hi2 => hall i (by omega) hi2) hk (by omega) (by omega)

theorem handleLoop_error_source {ε : Type} (m : RetryMiddleware) (env : Env)
    (sends : Nat → Except ε Response) (res : Response) :
    ∀ n retries sendCount waits e, m.max_retries - retries ≤ n →
      (handleLoop m env sends res retries sendCount waits).1 = .error e →
      ∃ i, sendCount ≤ i ∧ sends i = .error e := by
  intro n
  induction n with
  | zero =>
    intro retries sendCount waits e hn he
    rw [handleLoop_stop _ _ _ _ _ _ _ (by omega)] at he
    simp at he
  | succ n ih =>
    intro retries sendCount waits e hn he
    by_cases h : retries < m.max_retries
    · rw [handleLoop_step _ _ _ _ _ _ _ h] at he
      cases hs : sends sendCount with
      | error e2 =>
        rw [hs] at he
        simp at he
        exact ⟨sendCount, le_refl _, by rw [hs, he]⟩
      | ok res2 =>
        rw [hs] at he
        by_cases h2 : res2.status ∈ RETRY_CODES
        · simp only [h2, if_true] at he
          obtain ⟨i, hi1, hi2⟩ := ih (retries + 1) (sendCount + 1)
            (waits ++ [resolveWait m env res (retries + 1)]) e (by omega) he
          exact ⟨i, by omega, hi2⟩
        · simp only [h2, if_false] at he
          simp at he
    · rw [handleLoop_stop _ _ _ _ _ _ _ h] at he
      simp at he

theorem handleLoop_waits_mem {ε : Type} (m : RetryMiddleware) (env : Env)
    (sends : Nat → Except ε Response) (res : Response) :
    ∀ n retries sendCount waits x, m.max_retries - retries ≤ n →
      x ∈ (handleLoop m env sends res retries sendCount waits).2.2 →
      x ∈ waits ∨ ∃ j, retries < j ∧ j ≤ m.max_retries ∧
        x = resolveWait m env res j := by
  intro n
  induction n with
  | zero =>
    intro retries sendCount waits x hn hx
    rw [handleLoop_stop _ _ _ _ _ _ _ (by omega)] at hx
    exact Or.inl hx
  | succ n ih =>
    intro retries sendCount waits x hn hx
    by_cases h : retries < m.max_retries
    · rw [handleLoop_step _ _ _ _ _ _ _ h] at hx
      cases hs : sends sendCount with
      | error e =>
        rw [hs] at hx
        simp at hx
        rcases hx with hx | hx
        · exact Or.inl hx
        · exact Or.inr ⟨retries + 1, by omega, by omega, hx⟩
      | ok res2 =>
        rw [hs] at hx
        by_cases h2 : res2.status ∈ RETRY_CODES
        · simp only [h2, if_true] at hx
          rcases ih (retries + 1) (sendCount + 1)
            (waits ++ [resolveWait m env res (retries + 1)]) x (by omega) hx with
            hx | ⟨j, hj1, hj2, hj3⟩
          · simp at hx
            rcases hx with hx | hx
            · exact Or.inl hx
            · exact Or.inr ⟨retries + 1, by omega, by omega, hx⟩
          · exact Or.inr ⟨j, by omega, hj2, hj3⟩
        · simp only [h2, if_false] at hx
          simp at hx
          rcases hx with hx | hx
          · exact Or.inl hx
          · exact Or.inr ⟨retries + 1, by omega, by omega, hx⟩
    · rw [handleLoop_stop _ _ _ _ _ _ _ h] at hx
      exact Or.inl hx

theorem handleLoop_status_only {ε : Type} (m : RetryMiddleware) (env : Env)
    (sends sends2 : Nat → Except ε Response) (res : Response) :
    ∀ n retries sendCount waits, m.max_retries - retries ≤ n →
      (∀ i, sendCount ≤ i → sameStatusOutcome (sends i) (sends2 i)) →
      (handleLoop m env sends res retries sendCount waits).2.1 =
        (handleLoop m env sends2 res retries sendCount waits).2.1 ∧
      (handleLoop m env sends res retries sendCount waits).2.2 =
        (handleLoop m env sends2 res retries sendCount waits).2.2 := by
  intro n
  induction n with
  | zero =>
    intro retries sendCount waits hn _
    rw [handleLoop_stop _ _ _ _ _ _ _ (by omega),
      handleLoop_stop _ _ _ _ _ _ _ (by omega)]
    exact ⟨rfl, rfl⟩
  | succ n ih =>
    intro retries sendCount waits hn hsame
    by_cases h : retries < m.max_retries
    · rw [handleLoop_step m env sends _ _ _ _ h,
        handleLoop_step m env sends2 _ _ _ _ h]
      have hsc := hsame sendCount (le_refl _)
      cases hs : sends sendCount with
      | error e =>
        cases hs2 : sends2 sendCount with
        | error e2 => simp
        | ok r2 =>
          rw [hs, hs2] at hsc
          exact absurd hsc (by simp [sameStatusOutcome])
      | ok r =>
        cases hs2 : sends2 sendCount with
        | error e2 =>
          rw [hs, hs2] at hsc
          exact absurd hsc (by simp [sameStatusOutcome])
        | ok r2 =>
          rw [hs, hs2] at hsc
          have hst : r.status = r2.status := hsc
          dsimp only
          rw [hst]
          by_cases h2 : r2.status ∈ RETRY_CODES
          · simp only [h2, if_true]
            exact ih (retries + 1) (sendCount + 1)
              (waits ++ [resolveWait m env res (retries + 1)]) (by omega)
              (fun i hi => hsame i (by omega))
          · simp only [h2, if_false]
            simp
    · rw [handleLoop_stop m env sends _ _ _ _ h,
        handleLoop_stop m env sends2 _ _ _ _ h]
      exact ⟨rfl, rfl⟩

theorem handleLoop_control {ε : Type} (m m2 : RetryMiddleware) (env : Env)
    (sends : Nat → Except ε Response) (res : Response)
    (hmm : m.max_retries = m2.max_retries) :
    ∀ n retries sendCount waits waits2, m.max_retries - retries ≤ n →
      (handleLoop m env sends res retries sendCount waits).1 =
        (handleLoop m2 env sends res retries sendCount waits2).1 ∧
      (handleLoop m env sends res retries sendCount waits).2.1 =
        (handleLoop m2 env sends res retries sendCount waits2).2.1 := by
  intro n
  induction n with
  | zero =>
    intro retries sendCount waits waits2 hn
    rw [handleLoop_stop m env sends res retries sendCount waits (by omega),
      handleLoop_stop m2 env sends res retries sendCount waits2 (by omega)]
    exact ⟨rfl, rfl⟩
  | succ n ih =>
    intro retries sendCount waits waits2 hn
    by_cases h : retries < m.max_retries
    · rw [handleLoop_step m env sends res retries sendCount waits h,
        handleLoop_step m2 env sends res retries sendCount waits2 (by omega)]
      cases hs : sends sendCount with
      | error e => exact ⟨rfl, rfl⟩
      | ok res2 =>
        dsimp only
        by_cases h2 : res2.status ∈ RETRY_CODES
        · simp only [h2, if_true]
          exact ih (retries + 1) (sendCount + 1) _ _ (by omega)
        · simp only [h2, if_false]
          trivial
    · rw [handleLoop_stop m env sends res retries sendCount waits h,
        handleLoop_stop m2 env sends res retries sendCount waits2 (by omega)]
      exact ⟨rfl, rfl⟩

/-! Claim theorems. -/

/-- Claim C2, counterexample: with a policy whose `execute_after` lies half a
second after `Utc::now()`, the delay resolved before the retry is 0 seconds
(`Duration::as_secs` truncates), refuting the invariant that every resolved
wait duration is at least 1 second. -/
theorem policy_delay_zero_cex :
    (RetryMiddleware.handle mPolicyHalfSecond envZero sends429).2.2 = [0] ∧
      ¬ (∀ x ∈ (RetryMiddleware.handle mPolicyHalfSecond envZero sends429).2.2,
          1 ≤ x) := by
  have h : (RetryMiddleware.handle mPolicyHalfSecond envZero sends429).2.2 =
      [0] := by
    simp +decide [RetryMiddleware.handle, handleLoop, sends429,
      mPolicyHalfSecond, envZero, resolveWait, RetryMiddleware.use_policy,
      RETRY_CODES, NANOS_PER_SEC]
  refine ⟨h, ?_⟩
  rw [h]
  simp

/-- Claim C2 (amended): a wait duration resolved from a parseable
`Retry-After` header is always at least 1 second; delays resolved through the
backoff policy are truncated to whole seconds and can be 0, and the fallback
interval is used exactly as configured. -/
theorem header_delay_at_least_one_second
    (parse_http_date : String → Option Nat) (sys_time : Nat) (header : String)
    (s : Nat) (h : retry_to_seconds parse_http_date sys_time header = some s) :
    1 ≤ s := by
  simp only [retry_to_seconds] at h
  rcases hp : parseU64 header with _ | v <;> rw [hp] at h <;> dsimp only at h
  · rcases hd : parse_http_date header with _ | d <;> rw [hd] at h <;>
      dsimp only at h
    · simp at h
    · by_cases hlt : d < sys_time
      · rw [if_pos hlt] at h
        simp at h
      · rw [if_neg hlt] at h
        dsimp only at h
        rw [Option.some_inj] at h
        split at h <;> omega
  · rw [Option.some_inj] at h
    split at h <;> omega

/-- Claim C2, witness for the amended theorem at the header value `0`. -/
theorem header_delay_at_least_one_second_witness :
    retry_to_seconds (fun _ => none) 0 "0" = some 1 ∧ 1 ≤ 1 :=
  ⟨by decide,
   header_delay_at_least_one_second (fun _ => none) 0 "0" 1 (by decide)⟩

/-- Claim C3, counterexample: a retryable response whose `Retry-After` header
is an HTTP-date one second in the past resolves to the policy/fallback value
(here 7 seconds), not to a 1-second clamp: `duration_since` fails on a past
date, `retry_to_seconds` propagates the error, and `handle` falls back to
`use_policy`. -/
theorem past_date_not_clamped_cex :
    (RetryMiddleware.handle mFallback7 envPast sendsPast).2.2 = [7] ∧
      (7 : Nat) ≠ 1 := by
  constructor
  · simp +decide [RetryMiddleware.handle, handleLoop, sendsPast, mFallback7,
      envPast, resolveWait, RetryMiddleware.use_policy, RETRY_CODES,
      retry_to_seconds, NANOS_PER_SEC, pastDateStr]
  · decide

/-- Claim C3 (amended): a `Retry-After: 0` header resolves to exactly 1
second, but a `Retry-After` header holding an HTTP-date strictly in the past
makes the resolver fall through to the backoff-policy path (`use_policy`)
instead of being clamped to 1 second. -/
theorem zero_header_clamped_past_date_falls_through (m : RetryMiddleware)
    (env : Env) (st : Nat) (j : Nat) :
    resolveWait m env ⟨st, some "0"⟩ j = 1 ∧
    (∀ hdr d, parseU64 hdr = none → env.parse_http_date hdr = some d →
      d < env.nowSys j →
      resolveWait m env ⟨st, some hdr⟩ j = m.use_policy j (env.nowUtc j)) := by
  constructor
  · have h0 : parseU64 "0" = some 0 := by decide
    simp [resolveWait, retry_to_seconds, h0]
  · intro hdr d hp hd hlt
    simp [resolveWait, retry_to_seconds, hp, hd, hlt]

/-- Claim C3, witness: the amended theorem instantiated on `Retry-After: 0`
and on the concrete past date of `envPast`. -/
theorem zero_header_clamped_past_date_falls_through_witness :
    resolveWait mFallback7 envPast ⟨429, some "0"⟩ 1 = 1 ∧
    resolveWait mFallback7 envPast ⟨429, some pastDateStr⟩ 1 =
      mFallback7.use_policy 1 (envPast.nowUtc 1) :=
  have h := zero_header_clamped_past_date_falls_through mFallback7 envPast 429 1
  ⟨h.1, h.2 pastDateStr 0 (by decide) (by decide) (by decide)⟩

/-- Claim C7 (confirmed): a response carrying `Retry-After: 5` resolves to
exactly 5 seconds at every attempt index, whatever the configured policy, and
every sleep performed by `handle` under such a first response is 5 seconds. -/
theorem integer_header_precedence {ε : Type} (m : RetryMiddleware) (env : Env)
    (sends : Nat → Except ε Response) (r0 : Response)
    (h0 : sends 0 = .ok r0) (hha : r0.retryAfter = some "5") :
    (∀ j, resolveWait m env r0 j = 5) ∧
    ∀ x ∈ (RetryMiddleware.handle m env sends).2.2, x = 5 := by
  have hres : ∀ j, resolveWait m env r0 j = 5 := by
    intro j
    have h5 : parseU64 "5" = some 5 := by decide
    simp [resolveWait, hha, retry_to_seconds, h5]
  refine ⟨hres, ?_⟩
  intro x hx
  unfold RetryMiddleware.handle at hx
  rw [h0] at hx
  by_cases hrc : r0.status ∈ RETRY_CODES
  · simp only [hrc, if_true] at hx
    rcases handleLoop_waits_mem m env sends r0 m.max_retries 0 1 [] x
      (by omega) hx with hx | ⟨j, _, _, hj⟩
    · simp at hx
    · rw [hj, hres j]
  · simp [hrc] at hx

/-- Claim C7, witness: `Retry-After: 5` against a middleware whose policy
declines and whose fallback is 7 seconds still resolves to 5 seconds. -/
theorem integer_header_precedence_witness :
    resolveWait mFallback7 envZero ⟨429, some "5"⟩ 1 = 5 :=
  (integer_header_precedence mFallback7 envZero sendsHdr5 ⟨429, some "5"⟩
    rfl rfl).1 1

/-- Claim C8 (confirmed): a `Retry-After` header that parses neither as an
integer nor as an HTTP-date makes `retry_to_seconds` fail, the resolved delay
equals `use_policy`'s output for that attempt index (which is the policy's
instant-derived value or the fallback interval), and the only errors `handle`
ever returns come from the transport, never from header parsing. -/
theorem bad_header_falls_back_to_policy {ε : Type} (m : RetryMiddleware)
    (env : Env) (sends : Nat → Except ε Response) (hdr : String)
    (hp : parseU64 hdr = none) (hd : env.parse_http_date hdr = none) :
    (∀ sys, retry_to_seconds env.parse_http_date sys hdr = none) ∧
    (∀ st j, resolveWait m env ⟨st, some hdr⟩ j =
      m.use_policy j (env.nowUtc j)) ∧
    (∀ e, (RetryMiddleware.handle m env sends).1 = .error e →
      ∃ i, sends i = .error e) := by
  refine ⟨?_, ?_, ?_⟩
  · intro sys
    simp [retry_to_seconds, hp, hd]
  · intro st j
    simp [resolveWait, retry_to_seconds, hp, hd]
  · intro e he
    unfold RetryMiddleware.handle at he
    cases hq : sends 0 with
    | error e2 =>
      rw [hq] at he
      simp at he
      exact ⟨0, by rw [hq, he]⟩
    | ok r =>
      rw [hq] at he
      by_cases hrc : r.status ∈ RETRY_CODES
      · simp only [hrc, if_true] at he
        obtain ⟨i, _, hi⟩ := handleLoop_error_source m env sends r
          m.max_retries 0 1 [] e (by omega) he
        exact ⟨i, hi⟩
      · simp [hrc] at he

/-- Claim C8, witness: the unparsable header `not-a-number-or-date` resolves
to the `use_policy` value. -/
theorem bad_header_falls_back_to_policy_witness :
    resolveWait mFallback7 envZero ⟨429, some "not-a-number-or-date"⟩ 1 =
      mFallback7.use_policy 1 (envZero.nowUtc 1) :=
  (bad_header_falls_back_to_policy mFallback7 envZero sends429
    "not-a-number-or-date" (by decide) rfl).2.1 429 1

/-- Claim C1, counterexample: with one retry allowed, a first response of
`429` and a second (still retryable) response of `408`, the attempt ceiling
is exhausted and `handle` returns the first response (`429`), not the last
one received (`408`): the loop's inner `let res` only shadows the outer
binding, so the final `Ok(res)` sees the first response. -/
theorem exhaustion_returns_first_not_last_cex :
    sendsThen408 1 = .ok ⟨408, none⟩ ∧
    (RetryMiddleware.handle mOneRetry envZero sendsThen408).2.1 = 2 ∧
    (RetryMiddleware.handle mOneRetry envZero sendsThen408).1 =
      .ok ⟨429, none⟩ ∧
    (RetryMiddleware.handle mOneRetry envZero sendsThen408).1 ≠
      .ok ⟨408, none⟩ := by
  have h : RetryMiddleware.handle mOneRetry envZero sendsThen408 =
      (.ok ⟨429, none⟩, 2, [1]) := by
    simp +decide [RetryMiddleware.handle, handleLoop, sendsThen408, mOneRetry,
      envZero, resolveWait, RetryMiddleware.use_policy, RETRY_CODES]
  rw [h]
  refine ⟨rfl, rfl, rfl, ?_⟩
  simp

/-- Claim C1 (amended): when the first response is retryable and every
response received up to the attempt ceiling is also retryable, `handle`
performs `max_retries + 1` sends and returns `Ok` with the first response
received; the later retryable responses are discarded. -/
theorem exhaustion_returns_first_response {ε : Type} (m : RetryMiddleware)
    (env : Env) (sends : Nat → Except ε Response) (r0 : Response)
    (h0 : sends 0 = .ok r0)
    (hall : ∀ i, i ≤ m.max_retries →
      ∃ r, sends i = .ok r ∧ r.status ∈ RETRY_CODES) :
    (RetryMiddleware.handle m env sends).1 = .ok r0 ∧
    (RetryMiddleware.handle m env sends).2.1 = m.max_retries + 1 := by
  obtain ⟨r, hr, hrc⟩ := hall 0 (Nat.zero_le _)
  rw [h0] at hr
  injection hr with hr
  subst hr
  unfold RetryMiddleware.handle
  rw [h0]
  simp only [hrc, if_true]
  have := handleLoop_all_retryable m env sends r0 m.max_retries 0 1 []
    (by omega) (fun i hi1 hi2 => hall i (by omega))
  exact ⟨this.1, by omega⟩

/-- Claim C1, witness: a run where every response is `429` and one retry is
allowed returns the first response after two sends. -/
theorem exhaustion_returns_first_response_witness :
    (RetryMiddleware.handle mOneRetry envZero sends429).1 =
      .ok ⟨429, none⟩ ∧
    (RetryMiddleware.handle mOneRetry envZero sends429).2.1 = 2 :=
  have h := exhaustion_returns_first_response mOneRetry envZero sends429
    ⟨429, none⟩ rfl (fun i _ => ⟨⟨429, none⟩, rfl, by decide⟩)
  ⟨h.1, h.2⟩

/-- Claim C4 (confirmed): the `Retry-After` header consulted on every loop
iteration is the first response's.  Two transports that agree on the first
response and agree on the status (or error) of every later response — while
their later responses may carry arbitrarily different headers — produce the
same sleep durations and the same number of sends. -/
theorem delays_use_only_first_response_header {ε : Type}
    (m : RetryMiddleware) (env : Env)
    (sends sends2 : Nat → Except ε Response)
    (h0 : sends 0 = sends2 0)
    (hs : ∀ i, 1 ≤ i → sameStatusOutcome (sends i) (sends2 i)) :
    (RetryMiddleware.handle m env sends).2.2 =
      (RetryMiddleware.handle m env sends2).2.2 ∧
    (RetryMiddleware.handle m env sends).2.1 =
      (RetryMiddleware.handle m env sends2).2.1 := by
  unfold RetryMiddleware.handle
  rw [← h0]
  cases hq : sends 0 with
  | error e => exact ⟨rfl, rfl⟩
  | ok r =>
    by_cases hrc : r.status ∈ RETRY_CODES
    · simp only [hrc, if_true]
      have := handleLoop_status_only m env sends sends2 r m.max_retries 0 1 []
        (by omega) (fun i hi => hs i hi)
      exact ⟨this.2, this.1⟩
    · simp only [hrc, if_false]
      trivial

/-- Claim C4, witness: changing only the second response's `Retry-After`
header (7 versus 1000 seconds) changes neither the sleeps nor the send
count. -/
theorem delays_use_only_first_response_header_witness :
    (RetryMiddleware.handle mOneRetry envZero sendsHdrA).2.2 =
      (RetryMiddleware.handle mOneRetry envZero sendsHdrB).2.2 ∧
    (RetryMiddleware.handle mOneRetry envZero sendsHdrA).2.1 =
      (RetryMiddleware.handle mOneRetry envZero sendsHdrB).2.1 :=
  delays_use_only_first_response_header mOneRetry envZero sendsHdrA sendsHdrB
    rfl (fun i hi => by
      by_cases h : i = 1 <;>
        simp [sendsHdrA, sendsHdrB, h, sameStatusOutcome])

/-- Claim C5 (confirmed): `handle` performs at most `max_retries + 1` sends,
sleeps at most `max_retries` times (the attempt counter, incremented once per
sleep, never exceeds `max_retries`), and with `max_retries = 0` performs
exactly one send whatever the response. -/
theorem bounded_attempts {ε : Type} (m : RetryMiddleware) (env : Env)
    (sends : Nat → Except ε Response) :
    (RetryMiddleware.handle m env sends).2.1 ≤ m.max_retries + 1 ∧
    (RetryMiddleware.handle m env sends).2.2.length ≤ m.max_retries ∧
    (m.max_retries = 0 → (RetryMiddleware.handle m env sends).2.1 = 1) := by
  unfold RetryMiddleware.handle
  cases hq : sends 0 with
  | error e => simp
  | ok r =>
    by_cases hrc : r.status ∈ RETRY_CODES
    · simp only [hrc, if_true]
      refine ⟨?_, ?_, ?_⟩
      · have := handleLoop_sendCount_le m env sends r m.max_retries 0 1 []
          (by omega)
        omega
      · have := handleLoop_waits_len m env sends r m.max_retries 0 1 []
          (by omega)
        simp at this
        omega
      · intro hmz
        rw [handleLoop_stop _ _ _ _ _ _ _ (by omega)]
    · simp [hrc]

/-- Claim C5, witness: with `max_retries = 0` and a retryable response,
exactly one send occurs. -/
theorem bounded_attempts_witness :
    (RetryMiddleware.handle mZero envZero sends429).2.1 = 1 :=
  (bounded_attempts mZero envZero sends429).2.2 rfl

/-- Claim C6 (confirmed): with no `Retry-After` header, the delay resolver
returns the configured fallback interval at every attempt index at which the
policy signals `DoNotRetry`; under an always-declining policy every sleep the
run performs is the fallback interval and the retry still happens (at least
two sends occur when the first response is retryable and the ceiling allows
a retry); and the policy's stop signal never terminates the loop at any
iteration: substituting an arbitrary other policy changes neither `handle`'s
result nor its send count. -/
theorem policy_stop_still_retries {ε : Type} (m : RetryMiddleware) (env : Env)
    (sends : Nat → Except ε Response) (p2 : Nat → RetryDecision)
    (r0 : Response)
    (h0 : sends 0 = .ok r0) (hrc : r0.status ∈ RETRY_CODES)
    (hha : r0.retryAfter = none) (hpol : ∀ j, m.policy j = .DoNotRetry)
    (hmax : 1 ≤ m.max_retries) :
    (∀ j, resolveWait m env r0 j = m.fallback_interval) ∧
    (RetryMiddleware.handle m env sends).2.2.head? =
      some m.fallback_interval ∧
    (∀ x ∈ (RetryMiddleware.handle m env sends).2.2,
      x = m.fallback_interval) ∧
    2 ≤ (RetryMiddleware.handle m env sends).2.1 ∧
    (RetryMiddleware.handle m env sends).1 =
      (RetryMiddleware.handle ⟨m.max_retries, p2, m.fallback_interval⟩
        env sends).1 ∧
    (RetryMiddleware.handle m env sends).2.1 =
      (RetryMiddleware.handle ⟨m.max_retries, p2, m.fallback_interval⟩
        env sends).2.1 := by
  have hres : ∀ j, resolveWait m env r0 j = m.fallback_interval := by
    intro j
    simp [resolveWait, hha, RetryMiddleware.use_policy, hpol j]
  have hmem : ∀ x ∈ (RetryMiddleware.handle m env sends).2.2,
      x = m.fallback_interval := by
    intro x hx
    unfold RetryMiddleware.handle at hx
    rw [h0] at hx
    simp only [hrc, if_true] at hx
    rcases handleLoop_waits_mem m env sends r0 m.max_retries 0 1 [] x
      (by omega) hx with hx | ⟨j, _, _, hj⟩
    · simp at hx
    · rw [hj, hres j]
  have hctl := handleLoop_control m ⟨m.max_retries, p2, m.fallback_interval⟩
    env sends r0 rfl m.max_retries 0 1 [] [] (by omega)
  refine ⟨hres, ?_, hmem, ?_, ?_, ?_⟩
  · unfold RetryMiddleware.handle
    rw [h0]
    simp only [hrc, if_true]
    rw [handleLoop_step _ _ _ _ _ _ _ (by omega)]
    cases hq : sends 1 with
    | error e => simp [hres 1]
    | ok res2 =>
      by_cases h2 : res2.status ∈ RETRY_CODES
      · simp only [h2, if_true]
        obtain ⟨t, ht⟩ := handleLoop_waits_prefix m env sends r0 m.max_retries
          (0 + 1) (1 + 1) ([] ++ [resolveWait m env r0 (0 + 1)]) (by omega)
        rw [ht]
        simp [hres 1]
      · simp only [h2, if_false]
        simp [hres 1]
  · unfold RetryMiddleware.handle
    rw [h0]
    simp only [hrc, if_true]
    rw [handleLoop_step _ _ _ _ _ _ _ (by omega)]
    cases hq : sends 1 with
    | error e => simp
    | ok res2 =>
      by_cases h2 : res2.status ∈ RETRY_CODES
      · simp only [h2, if_true]
        have := handleLoop_sendCount_ge m env sends r0 m.max_retries
          (0 + 1) (1 + 1) ([] ++ [resolveWait m env r0 (0 + 1)]) (by omega)
        omega
      · simp only [h2, if_false]
        simp
  · unfold RetryMiddleware.handle
    rw [h0]
    simp only [hrc, if_true]
    exact hctl.1
  · unfold RetryMiddleware.handle
    rw [h0]
    simp only [hrc, if_true]
    exact hctl.2

/-- Claim C6, witness: a declining policy with a 7-second fallback still
retries — the resolver yields 7 at attempt index 1, the first sleep is 7
seconds, two sends occur, and swapping in a policy that always answers
`Retry` leaves the send count unchanged. -/
theorem policy_stop_still_retries_witness :
    resolveWait mFallback7 envZero ⟨429, none⟩ 1 =
      mFallback7.fallback_interval ∧
    (RetryMiddleware.handle mFallback7 envZero sends429).2.2.head? =
      some mFallback7.fallback_interval ∧
    2 ≤ (RetryMiddleware.handle mFallback7 envZero sends429).2.1 ∧
    (RetryMiddleware.handle mFallback7 envZero sends429).2.1 =
      (RetryMiddleware.handle
        ⟨mFallback7.max_retries, fun _ => .Retry 0,
          mFallback7.fallback_interval⟩ envZero sends429).2.1 :=
  have h := policy_stop_still_retries mFallback7 envZero sends429
    (fun _ => .Retry 0) ⟨429, none⟩ rfl (by decide) rfl (fun _ => rfl)
    (by decide)
  ⟨h.1 1, h.2.1, h.2.2.2.1, h.2.2.2.2.2⟩

/-- Claim C9 (confirmed): when the first response's status lies outside
`RETRY_CODES`, `handle` performs exactly one send, sleeps never, and returns
that response unchanged; and `RETRY_CODES` holds exactly 429 and 408. -/
theorem non_retryable_short_circuit {ε : Type} (m : RetryMiddleware)
    (env : Env) (sends : Nat → Except ε Response) (r0 : Response)
    (h0 : sends 0 = .ok r0) (hrc : r0.status ∉ RETRY_CODES) :
    RetryMiddleware.handle m env sends = (.ok r0, 1, []) ∧
    ∀ c, c ∈ RETRY_CODES ↔ (c = 429 ∨ c = 408) := by
  constructor
  · unfold RetryMiddleware.handle
    rw [h0]
    simp [hrc]
  · intro c
    simp [RETRY_CODES]

/-- Claim C9, witness: a `200` first response is returned unchanged after a
single send, and 408 is in the retryable set. -/
theorem non_retryable_short_circuit_witness :
    RetryMiddleware.handle mOneRetry envZero sends200 =
      (.ok ⟨200, none⟩, 1, []) ∧
    ((408 : Nat) ∈ RETRY_CODES ↔ ((408 : Nat) = 429 ∨ (408 : Nat) = 408)) :=
  have h := non_retryable_short_circuit mOneRetry envZero sends200
    ⟨200, none⟩ rfl (by decide)
  ⟨h.1, h.2 408⟩

/-- Claim C10 (confirmed): if the sends before index `k` all yield retryable
responses and the `k`-th send fails with a transport error (with `k` within
the attempt ceiling), `handle` returns exactly that error and performs
exactly `k + 1` sends — the failure is neither classified nor retried. -/
theorem transport_error_propagates_immediately {ε : Type}
    (m : RetryMiddleware) (env : Env) (sends : Nat → Except ε Response)
    (k : Nat) (e : ε)
    (hok : ∀ i, i < k → ∃ r, sends i = .ok r ∧ r.status ∈ RETRY_CODES)
    (he : sends k = .error e) (hk : k ≤ m.max_retries) :
    (RetryMiddleware.handle m env sends).1 = .error e ∧
    (RetryMiddleware.handle m env sends).2.1 = k + 1 := by
  unfold RetryMiddleware.handle
  by_cases hk0 : k = 0
  · subst hk0
    rw [he]
    exact ⟨rfl, rfl⟩
  · obtain ⟨r0, hr0, hrc⟩ := hok 0 (by omega)
    rw [hr0]
    simp only [hrc, if_true]
    exact handleLoop_error_at m env sends r0 m.max_retries 0 1 [] k e
      (by omega) (fun i h1 h2 => hok i h2) he (by omega) (by omega)

/-- Claim C10, witness: a `429` first response followed by a transport error
on the resend makes `handle` return the error after exactly two sends. -/
theorem transport_error_propagates_immediately_witness :
    (RetryMiddleware.handle mOneRetry envZero sendsErrAt1).1 = .error () ∧
    (RetryMiddleware.handle mOneRetry envZero sendsErrAt1).2.1 = 2 :=
  have h := transport_error_propagates_immediately mOneRetry envZero
    sendsErrAt1 1 ()
    (fun i hi => by
      have hi0 : i = 0 := by omega
      subst hi0
      exact ⟨⟨429, none⟩, rfl, by decide⟩)
    rfl (by decide)
  ⟨h.1, h.2⟩

end SurfRetry
